import Mathlib

set_option maxHeartbeats 1000000
set_option maxRecDepth 100000

deriving instance DecidableEq for Except

namespace Valctx

/-- Strings are modelled as lists of Unicode characters. Go strings are UTF-8
byte sequences; every operation the program performs on them (trimming,
splitting on ASCII characters, last-index of ASCII characters, first-rune
decoding, slicing at rune boundaries) acts on whole runes, so the
character-list view is faithful. -/
abbrev Str := List Char

/-- Error values crossing the app package boundary: the two sentinel errors
declared at the top of the file, the slice-bounds panic a hand-crafted
CustomType flag without a dot would cause in ParseFields, and dynamic
errors.New / fmt.Errorf messages. -/
inductive GoErr where
  | invalidFormat
  | unsupportedFlagFormat
  | panicSliceBounds
  | msg (s : String)
deriving DecidableEq

/-- FieldKind constants of the app package. -/
inductive FieldKind where
  | Default
  | BuiltInOnly
  | CustomType
deriving DecidableEq

/-- FieldFlag of the app package (field Type is lower-cased to type because
Type is a sort former in Lean). -/
structure FieldFlag where
  kind : FieldKind
  name : Str
  type : Str
deriving DecidableEq

/-- Whitespace predicate of Go unicode.IsSpace; strings.TrimSpace trims
exactly these code points. -/
def goIsSpace (c : Char) : Bool :=
  c = ' ' || c = '\t' || c = '\n' || c.val = 11 || c.val = 12 || c = '\r' ||
  c.val = 0x85 || c.val = 0xA0 || c.val = 0x1680 ||
  (0x2000 ≤ c.val && c.val ≤ 0x200A) ||
  c.val = 0x2028 || c.val = 0x2029 || c.val = 0x202F || c.val = 0x205F ||
  c.val = 0x3000

/-- Model of strings.TrimSpace. -/
def trimSpace (s : Str) : Str :=
  ((s.dropWhile goIsSpace).reverse.dropWhile goIsSpace).reverse

/-- Model of strings.SplitN with separator colon and limit 2: the part before
the first colon and, when a colon occurs, the part after it. -/
def splitFirstColon : Str → Str × Option Str
  | [] => ([], none)
  | c :: rest =>
      if c = ':' then ([], some rest)
      else
        let p := splitFirstColon rest
        (c :: p.1, p.2)

/-- Character index of the last occurrence of c in s. Go strings.LastIndex
returns byte indices; byte and character indices order positions identically
and slice at the same boundaries here because the searched characters are
ASCII. -/
def lastIdx (s : Str) (c : Char) : Option Nat :=
  match s with
  | [] => none
  | a :: rest =>
      match lastIdx rest c with
      | some n => some (n + 1)
      | none => if a = c then some 0 else none

/-- Integer result of Go strings.LastIndex: the index, or -1 when absent. -/
def lastIdxI (s : Str) (c : Char) : Int :=
  match lastIdx s c with
  | some n => (n : Int)
  | none => -1

/-- Unicode replacement character U+FFFD, utf8.RuneError in Go. -/
def runeError : Char := '�'

/-- Model of utf8.DecodeRuneInString: the first character and its size; on
the empty string Go returns (RuneError, 0). Size counts characters, matching
the character-list view of strings. -/
def decodeRune (s : Str) : Char × Nat :=
  match s with
  | [] => (runeError, 0)
  | c :: _ => (c, 1)

/-- modifyFirstLetter of the app package: decode the first rune, apply modify
to it, keep the rest of the string unchanged. -/
def modifyFirstLetter (s : Str) (modify : Str → Str) : Str :=
  modify [(decodeRune s).1] ++ s.drop (decodeRune s).2

/-- Run of the Unicode simple case mapping: the codepoints lo, lo+stride,
..., hi all map by adding delta. Go's unicode package stores its case tables
in the same range-with-stride shape (CaseRange). -/
structure CaseRun where
  lo : Nat
  hi : Nat
  stride : Nat
  delta : Int
deriving DecidableEq

/-- Simple uppercase mapping of the Unicode character database (version
14.0.0): every codepoint with a single-codepoint uppercase mapping, as case
runs split into chunks of at most fifty (the split only keeps kernel
reduction of lookups cheap). This is the mapping Go's unicode.ToUpper
applies; the multi-character and conditional special casings take no part in
unicode.ToUpper and unicode.ToLower, which strings.ToUpper and
strings.ToLower apply rune by rune. -/
def upperRuns0 : List CaseRun :=
  [⟨97, 122, 1, -32⟩, ⟨181, 181, 1, 743⟩, ⟨224, 246, 1, -32⟩, ⟨248, 254, 1, -32⟩,
   ⟨255, 255, 1, 121⟩, ⟨257, 303, 2, -1⟩, ⟨305, 305, 1, -232⟩, ⟨307, 311, 2, -1⟩,
   ⟨314, 328, 2, -1⟩, ⟨331, 375, 2, -1⟩, ⟨378, 382, 2, -1⟩, ⟨383, 383, 1, -300⟩,
   ⟨384, 384, 1, 195⟩, ⟨387, 389, 2, -1⟩, ⟨392, 392, 1, -1⟩, ⟨396, 396, 1, -1⟩,
   ⟨402, 402, 1, -1⟩, ⟨405, 405, 1, 97⟩, ⟨409, 409, 1, -1⟩, ⟨410, 410, 1, 163⟩,
   ⟨414, 414, 1, 130⟩, ⟨417, 421, 2, -1⟩, ⟨424, 424, 1, -1⟩, ⟨429, 429, 1, -1⟩,
   ⟨432, 432, 1, -1⟩, ⟨436, 438, 2, -1⟩, ⟨441, 441, 1, -1⟩, ⟨445, 445, 1, -1⟩,
   ⟨447, 447, 1, 56⟩, ⟨453, 453, 1, -1⟩, ⟨454, 454, 1, -2⟩, ⟨456, 456, 1, -1⟩,
   ⟨457, 457, 1, -2⟩, ⟨459, 459, 1, -1⟩, ⟨460, 460, 1, -2⟩, ⟨462, 476, 2, -1⟩,
   ⟨477, 477, 1, -79⟩, ⟨479, 495, 2, -1⟩, ⟨498, 498, 1, -1⟩, ⟨499, 499, 1, -2⟩,
   ⟨501, 501, 1, -1⟩, ⟨505, 543, 2, -1⟩, ⟨547, 563, 2, -1⟩, ⟨572, 572, 1, -1⟩,
   ⟨575, 576, 1, 10815⟩, ⟨578, 578, 1, -1⟩, ⟨583, 591, 2, -1⟩, ⟨592, 592, 1, 10783⟩,
   ⟨593, 593, 1, 10780⟩, ⟨594, 594, 1, 10782⟩]

def upperRuns1 : List CaseRun :=
  [⟨595, 595, 1, -210⟩, ⟨596, 596, 1, -206⟩, ⟨598, 599, 1, -205⟩, ⟨601, 601, 1, -202⟩,
   ⟨603, 603, 1, -203⟩, ⟨604, 604, 1, 42319⟩, ⟨608, 608, 1, -205⟩, ⟨609, 609, 1, 42315⟩,
   ⟨611, 611, 1, -207⟩, ⟨613, 613, 1, 42280⟩, ⟨614, 614, 1, 42308⟩, ⟨616, 616, 1, -209⟩,
   ⟨617, 617, 1, -211⟩, ⟨618, 618, 1, 42308⟩, ⟨619, 619, 1, 10743⟩, ⟨620, 620, 1, 42305⟩,
   ⟨623, 623, 1, -211⟩, ⟨625, 625, 1, 10749⟩, ⟨626, 626, 1, -213⟩, ⟨629, 629, 1, -214⟩,
   ⟨637, 637, 1, 10727⟩, ⟨640, 640, 1, -218⟩, ⟨642, 642, 1, 42307⟩, ⟨643, 643, 1, -218⟩,
   ⟨647, 647, 1, 42282⟩, ⟨648, 648, 1, -218⟩, ⟨649, 649, 1, -69⟩, ⟨650, 651, 1, -217⟩,
   ⟨652, 652, 1, -71⟩, ⟨658, 658, 1, -219⟩, ⟨669, 669, 1, 42261⟩, ⟨670, 670, 1, 42258⟩,
   ⟨837, 837, 1, 84⟩, ⟨881, 883, 2, -1⟩, ⟨887, 887, 1, -1⟩, ⟨891, 893, 1, 130⟩,
   ⟨940, 940, 1, -38⟩, ⟨941, 943, 1, -37⟩, ⟨945, 961, 1, -32⟩, ⟨962, 962, 1, -31⟩,
   ⟨963, 971, 1, -32⟩, ⟨972, 972, 1, -64⟩, ⟨973, 974, 1, -63⟩, ⟨976, 976, 1, -62⟩,
   ⟨977, 977, 1, -57⟩, ⟨981, 981, 1, -47⟩, ⟨982, 982, 1, -54⟩, ⟨983, 983, 1, -8⟩,
   ⟨985, 1007, 2, -1⟩, ⟨1008, 1008, 1, -86⟩]

def upperRuns2 : List CaseRun :=
  [⟨1009, 1009, 1, -80⟩, ⟨1010, 1010, 1, 7⟩, ⟨1011, 1011, 1, -116⟩, ⟨1013, 1013, 1, -96⟩,
   ⟨1016, 1016, 1, -1⟩, ⟨1019, 1019, 1, -1⟩, ⟨1072, 1103, 1, -32⟩, ⟨1104, 1119, 1, -80⟩,
   ⟨1121, 1153, 2, -1⟩, ⟨1163, 1215, 2, -1⟩, ⟨1218, 1230, 2, -1⟩, ⟨1231, 1231, 1, -15⟩,
   ⟨1233, 1327, 2, -1⟩, ⟨1377, 1414, 1, -48⟩, ⟨4304, 4346, 1, 3008⟩, ⟨4349, 4351, 1, 3008⟩,
   ⟨5112, 5117, 1, -8⟩, ⟨7296, 7296, 1, -6254⟩, ⟨7297, 7297, 1, -6253⟩, ⟨7298, 7298, 1, -6244⟩,
   ⟨7299, 7300, 1, -6242⟩, ⟨7301, 7301, 1, -6243⟩, ⟨7302, 7302, 1, -6236⟩, ⟨7303, 7303, 1, -6181⟩,
   ⟨7304, 7304, 1, 35266⟩, ⟨7545, 7545, 1, 35332⟩, ⟨7549, 7549, 1, 3814⟩, ⟨7566, 7566, 1, 35384⟩,
   ⟨7681, 7829, 2, -1⟩, ⟨7835, 7835, 1, -59⟩, ⟨7841, 7935, 2, -1⟩, ⟨7936, 7943, 1, 8⟩,
   ⟨7952, 7957, 1, 8⟩, ⟨7968, 7975, 1, 8⟩, ⟨7984, 7991, 1, 8⟩, ⟨8000, 8005, 1, 8⟩,
   ⟨8017, 8023, 2, 8⟩, ⟨8032, 8039, 1, 8⟩, ⟨8048, 8049, 1, 74⟩, ⟨8050, 8053, 1, 86⟩,
   ⟨8054, 8055, 1, 100⟩, ⟨8056, 8057, 1, 128⟩, ⟨8058, 8059, 1, 112⟩, ⟨8060, 8061, 1, 126⟩,
   ⟨8064, 8071, 1, 8⟩, ⟨8080, 8087, 1, 8⟩, ⟨8096, 8103, 1, 8⟩, ⟨8112, 8113, 1, 8⟩,
   ⟨8115, 8115, 1, 9⟩, ⟨8126, 8126, 1, -7205⟩]

def upperRuns3 : List CaseRun :=
  [⟨8131, 8131, 1, 9⟩, ⟨8144, 8145, 1, 8⟩, ⟨8160, 8161, 1, 8⟩, ⟨8165, 8165, 1, 7⟩,
   ⟨8179, 8179, 1, 9⟩, ⟨8526, 8526, 1, -28⟩, ⟨8560, 8575, 1, -16⟩, ⟨8580, 8580, 1, -1⟩,
   ⟨9424, 9449, 1, -26⟩, ⟨11312, 11359, 1, -48⟩, ⟨11361, 11361, 1, -1⟩, ⟨11365, 11365, 1, -10795⟩,
   ⟨11366, 11366, 1, -10792⟩, ⟨11368, 11372, 2, -1⟩, ⟨11379, 11379, 1, -1⟩, ⟨11382, 11382, 1, -1⟩,
   ⟨11393, 11491, 2, -1⟩, ⟨11500, 11502, 2, -1⟩, ⟨11507, 11507, 1, -1⟩, ⟨11520, 11557, 1, -7264⟩,
   ⟨11559, 11559, 1, -7264⟩, ⟨11565, 11565, 1, -7264⟩, ⟨42561, 42605, 2, -1⟩, ⟨42625, 42651, 2, -1⟩,
   ⟨42787, 42799, 2, -1⟩, ⟨42803, 42863, 2, -1⟩, ⟨42874, 42876, 2, -1⟩, ⟨42879, 42887, 2, -1⟩,
   ⟨42892, 42892, 1, -1⟩, ⟨42897, 42899, 2, -1⟩, ⟨42900, 42900, 1, 48⟩, ⟨42903, 42921, 2, -1⟩,
   ⟨42933, 42947, 2, -1⟩, ⟨42952, 42954, 2, -1⟩, ⟨42961, 42961, 1, -1⟩, ⟨42967, 42969, 2, -1⟩,
   ⟨42998, 42998, 1, -1⟩, ⟨43859, 43859, 1, -928⟩, ⟨43888, 43967, 1, -38864⟩, ⟨65345, 65370, 1, -32⟩,
   ⟨66600, 66639, 1, -40⟩, ⟨66776, 66811, 1, -40⟩, ⟨66967, 66977, 1, -39⟩, ⟨66979, 66993, 1, -39⟩,
   ⟨66995, 67001, 1, -39⟩, ⟨67003, 67004, 1, -39⟩, ⟨68800, 68850, 1, -64⟩, ⟨71872, 71903, 1, -32⟩,
   ⟨93792, 93823, 1, -32⟩, ⟨125218, 125251, 1, -34⟩]

/-- Simple lowercase mapping of the Unicode character database (version
14.0.0), as case runs (see upperRuns0): the mapping Go's unicode.ToLower
applies. -/
def lowerRuns0 : List CaseRun :=
  [⟨65, 90, 1, 32⟩, ⟨192, 214, 1, 32⟩, ⟨216, 222, 1, 32⟩, ⟨256, 302, 2, 1⟩,
   ⟨304, 304, 1, -199⟩, ⟨306, 310, 2, 1⟩, ⟨313, 327, 2, 1⟩, ⟨330, 374, 2, 1⟩,
   ⟨376, 376, 1, -121⟩, ⟨377, 381, 2, 1⟩, ⟨385, 385, 1, 210⟩, ⟨386, 388, 2, 1⟩,
   ⟨390, 390, 1, 206⟩, ⟨391, 391, 1, 1⟩, ⟨393, 394, 1, 205⟩, ⟨395, 395, 1, 1⟩,
   ⟨398, 398, 1, 79⟩, ⟨399, 399, 1, 202⟩, ⟨400, 400, 1, 203⟩, ⟨401, 401, 1, 1⟩,
   ⟨403, 403, 1, 205⟩, ⟨404, 404, 1, 207⟩, ⟨406, 406, 1, 211⟩, ⟨407, 407, 1, 209⟩,
   ⟨408, 408, 1, 1⟩, ⟨412, 412, 1, 211⟩, ⟨413, 413, 1, 213⟩, ⟨415, 415, 1, 214⟩,
   ⟨416, 420, 2, 1⟩, ⟨422, 422, 1, 218⟩, ⟨423, 423, 1, 1⟩, ⟨425, 425, 1, 218⟩,
   ⟨428, 428, 1, 1⟩, ⟨430, 430, 1, 218⟩, ⟨431, 431, 1, 1⟩, ⟨433, 434, 1, 217⟩,
   ⟨435, 437, 2, 1⟩, ⟨439, 439, 1, 219⟩, ⟨440, 440, 1, 1⟩, ⟨444, 444, 1, 1⟩,
   ⟨452, 452, 1, 2⟩, ⟨453, 453, 1, 1⟩, ⟨455, 455, 1, 2⟩, ⟨456, 456, 1, 1⟩,
   ⟨458, 458, 1, 2⟩, ⟨459, 475, 2, 1⟩, ⟨478, 494, 2, 1⟩, ⟨497, 497, 1, 2⟩,
   ⟨498, 500, 2, 1⟩, ⟨502, 502, 1, -97⟩]

def lowerRuns1 : List CaseRun :=
  [⟨503, 503, 1, -56⟩, ⟨504, 542, 2, 1⟩, ⟨544, 544, 1, -130⟩, ⟨546, 562, 2, 1⟩,
   ⟨570, 570, 1, 10795⟩, ⟨571, 571, 1, 1⟩, ⟨573, 573, 1, -163⟩, ⟨574, 574, 1, 10792⟩,
   ⟨577, 577, 1, 1⟩, ⟨579, 579, 1, -195⟩, ⟨580, 580, 1, 69⟩, ⟨581, 581, 1, 71⟩,
   ⟨582, 590, 2, 1⟩, ⟨880, 882, 2, 1⟩, ⟨886, 886, 1, 1⟩, ⟨895, 895, 1, 116⟩,
   ⟨902, 902, 1, 38⟩, ⟨904, 906, 1, 37⟩, ⟨908, 908, 1, 64⟩, ⟨910, 911, 1, 63⟩,
   ⟨913, 929, 1, 32⟩, ⟨931, 939, 1, 32⟩, ⟨975, 975, 1, 8⟩, ⟨984, 1006, 2, 1⟩,
   ⟨1012, 1012, 1, -60⟩, ⟨1015, 1015, 1, 1⟩, ⟨1017, 1017, 1, -7⟩, ⟨1018, 1018, 1, 1⟩,
   ⟨1021, 1023, 1, -130⟩, ⟨1024, 1039, 1, 80⟩, ⟨1040, 1071, 1, 32⟩, ⟨1120, 1152, 2, 1⟩,
   ⟨1162, 1214, 2, 1⟩, ⟨1216, 1216, 1, 15⟩, ⟨1217, 1229, 2, 1⟩, ⟨1232, 1326, 2, 1⟩,
   ⟨1329, 1366, 1, 48⟩, ⟨4256, 4293, 1, 7264⟩, ⟨4295, 4295, 1, 7264⟩, ⟨4301, 4301, 1, 7264⟩,
   ⟨5024, 5103, 1, 38864⟩, ⟨5104, 5109, 1, 8⟩, ⟨7312, 7354, 1, -3008⟩, ⟨7357, 7359, 1, -3008⟩,
   ⟨7680, 7828, 2, 1⟩, ⟨7838, 7838, 1, -7615⟩, ⟨7840, 7934, 2, 1⟩, ⟨7944, 7951, 1, -8⟩,
   ⟨7960, 7965, 1, -8⟩, ⟨7976, 7983, 1, -8⟩]

def lowerRuns2 : List CaseRun :=
  [⟨7992, 7999, 1, -8⟩, ⟨8008, 8013, 1, -8⟩, ⟨8025, 8031, 2, -8⟩, ⟨8040, 8047, 1, -8⟩,
   ⟨8072, 8079, 1, -8⟩, ⟨8088, 8095, 1, -8⟩, ⟨8104, 8111, 1, -8⟩, ⟨8120, 8121, 1, -8⟩,
   ⟨8122, 8123, 1, -74⟩, ⟨8124, 8124, 1, -9⟩, ⟨8136, 8139, 1, -86⟩, ⟨8140, 8140, 1, -9⟩,
   ⟨8152, 8153, 1, -8⟩, ⟨8154, 8155, 1, -100⟩, ⟨8168, 8169, 1, -8⟩, ⟨8170, 8171, 1, -112⟩,
   ⟨8172, 8172, 1, -7⟩, ⟨8184, 8185, 1, -128⟩, ⟨8186, 8187, 1, -126⟩, ⟨8188, 8188, 1, -9⟩,
   ⟨8486, 8486, 1, -7517⟩, ⟨8490, 8490, 1, -8383⟩, ⟨8491, 8491, 1, -8262⟩, ⟨8498, 8498, 1, 28⟩,
   ⟨8544, 8559, 1, 16⟩, ⟨8579, 8579, 1, 1⟩, ⟨9398, 9423, 1, 26⟩, ⟨11264, 11311, 1, 48⟩,
   ⟨11360, 11360, 1, 1⟩, ⟨11362, 11362, 1, -10743⟩, ⟨11363, 11363, 1, -3814⟩, ⟨11364, 11364, 1, -10727⟩,
   ⟨11367, 11371, 2, 1⟩, ⟨11373, 11373, 1, -10780⟩, ⟨11374, 11374, 1, -10749⟩, ⟨11375, 11375, 1, -10783⟩,
   ⟨11376, 11376, 1, -10782⟩, ⟨11378, 11378, 1, 1⟩, ⟨11381, 11381, 1, 1⟩, ⟨11390, 11391, 1, -10815⟩,
   ⟨11392, 11490, 2, 1⟩, ⟨11499, 11501, 2, 1⟩, ⟨11506, 11506, 1, 1⟩, ⟨42560, 42604, 2, 1⟩,
   ⟨42624, 42650, 2, 1⟩, ⟨42786, 42798, 2, 1⟩, ⟨42802, 42862, 2, 1⟩, ⟨42873, 42875, 2, 1⟩,
   ⟨42877, 42877, 1, -35332⟩, ⟨42878, 42886, 2, 1⟩]

def lowerRuns3 : List CaseRun :=
  [⟨42891, 42891, 1, 1⟩, ⟨42893, 42893, 1, -42280⟩, ⟨42896, 42898, 2, 1⟩, ⟨42902, 42920, 2, 1⟩,
   ⟨42922, 42922, 1, -42308⟩, ⟨42923, 42923, 1, -42319⟩, ⟨42924, 42924, 1, -42315⟩, ⟨42925, 42925, 1, -42305⟩,
   ⟨42926, 42926, 1, -42308⟩, ⟨42928, 42928, 1, -42258⟩, ⟨42929, 42929, 1, -42282⟩, ⟨42930, 42930, 1, -42261⟩,
   ⟨42931, 42931, 1, 928⟩, ⟨42932, 42946, 2, 1⟩, ⟨42948, 42948, 1, -48⟩, ⟨42949, 42949, 1, -42307⟩,
   ⟨42950, 42950, 1, -35384⟩, ⟨42951, 42953, 2, 1⟩, ⟨42960, 42960, 1, 1⟩, ⟨42966, 42968, 2, 1⟩,
   ⟨42997, 42997, 1, 1⟩, ⟨65313, 65338, 1, 32⟩, ⟨66560, 66599, 1, 40⟩, ⟨66736, 66771, 1, 40⟩,
   ⟨66928, 66938, 1, 39⟩, ⟨66940, 66954, 1, 39⟩, ⟨66956, 66962, 1, 39⟩, ⟨66964, 66965, 1, 39⟩,
   ⟨68736, 68786, 1, 64⟩, ⟨71840, 71871, 1, 32⟩, ⟨93760, 93791, 1, 32⟩, ⟨125184, 125217, 1, 34⟩]

/-- Chunked uppercase table. -/
def upperTable : List (List CaseRun) := [upperRuns0, upperRuns1, upperRuns2, upperRuns3]

/-- Chunked lowercase table. -/
def lowerTable : List (List CaseRun) := [lowerRuns0, lowerRuns1, lowerRuns2, lowerRuns3]

/-- Delta a run list assigns to a codepoint: the delta of the first run
containing it with matching stride, if any. -/
def runDelta : List CaseRun → Nat → Option Int
  | [], _ => none
  | r :: rest, n =>
      if r.lo ≤ n ∧ n ≤ r.hi ∧ (n - r.lo) % r.stride = 0 then some r.delta
      else runDelta rest n

/-- Delta of the first chunk that maps the codepoint. -/
def tableDelta : List (List CaseRun) → Nat → Option Int
  | [], _ => none
  | t :: ts, n =>
      match runDelta t n with
      | some d => some d
      | none => tableDelta ts n

/-- Application of a case table to one character: add the table's delta to
the codepoint; characters without a mapping stay unchanged. -/
def applyCaseTable (table : List (List CaseRun)) (c : Char) : Char :=
  match tableDelta table c.toNat with
  | none => c
  | some d => Char.ofNat (((c.toNat : Int) + d).toNat)

/-- Model of Go unicode.ToUpper: the Unicode simple uppercase mapping of one
rune (characters without a mapping, such as U+FFFD or the sharp s, stay
unchanged). -/
def goUpperChar (c : Char) : Char := applyCaseTable upperTable c

/-- Model of Go unicode.ToLower (see goUpperChar). -/
def goLowerChar (c : Char) : Char := applyCaseTable lowerTable c

/-- Model of strings.ToUpper as applied to single-rune strings: the simple
uppercase mapping applied rune-wise. -/
def goToUpper (s : Str) : Str := s.map goUpperChar

/-- Model of strings.ToLower as applied to single-rune strings (see
goToUpper). -/
def goToLower (s : Str) : Str := s.map goLowerChar

/-- FieldFlag.Validate of the app package (lines 86-103), checks in source
order: empty name, Default kind, empty type, supported kind. -/
def FieldFlag.Validate (f : FieldFlag) : Option GoErr :=
  if f.name = [] then some (.msg "name is required")
  else if f.kind = .Default then none
  else if f.type = [] then some (.msg "type is required")
  else if f.kind = .BuiltInOnly ∨ f.kind = .CustomType then none
  else some .unsupportedFlagFormat

/-- NewField of the app package (lines 49-84): split on the first colon, trim,
classify by the last dot and last slash of the type text, then validate.
Go returns the pair (f, f.Validate()); callers discard f when the error is
non-nil, which Except models. -/
def NewField (value : Str) : Except GoErr FieldFlag :=
  match splitFirstColon value with
  | (p0, none) =>
      let f : FieldFlag := ⟨.Default, modifyFirstLetter (trimSpace p0) goToUpper, []⟩
      match f.Validate with
      | none => .ok f
      | some e => .error e
  | (p0, some p1) =>
      let name := trimSpace p0
      let t := trimSpace p1
      if lastIdxI t '.' > lastIdxI t '/' then
        let f : FieldFlag := ⟨.CustomType, modifyFirstLetter name goToUpper, t⟩
        match f.Validate with
        | none => .ok f
        | some e => .error e
      else if lastIdxI t '.' = -1 then
        let f : FieldFlag := ⟨.BuiltInOnly, modifyFirstLetter name goToUpper, t⟩
        match f.Validate with
        | none => .ok f
        | some e => .error e
      else .error .invalidFormat

/-- Record gen.Field of the internal gen package, with the fields ParseFields
uses: FieldName, KeyName, FieldType and the package alias set by SetPackage
(modelled as an Option because it is set only for CustomType fields). -/
structure GenField where
  FieldName : Str
  KeyName : Str
  FieldType : Str
  Package : Option Str
deriving DecidableEq

/-- Modelled from the spec: gen.Field.Validate (the internal gen package is
not under src/). Spec section 7 lists the per-field validation errors as
empty name and empty type. The deeper built-in-type syntax screening the
tests exercise is not modelled: no claim depends on which concrete type texts
it accepts, and every claim quantifying over resolutions either conditions on
success or assumes per-field validity explicitly. -/
def GenField.Validate (gf : GenField) : Option String :=
  if gf.FieldName = [] then some "field name is empty"
  else if gf.FieldType = [] then some "field type is empty"
  else none

/-- Message of fmt.Errorf with format "invalid field %q: %v". -/
def invalidFieldMsg (name : Str) (e : String) : GoErr :=
  .msg ("invalid field \"" ++ String.mk name ++ "\": " ++ e)

/-- Message of fmt.Errorf with format "field %q is duplicated". -/
def dupMsg (name : Str) : GoErr :=
  .msg ("field \"" ++ String.mk name ++ "\" is duplicated")

/-- Loop body of ParseFields for one FieldFlag (lines 134-157): build the
gen.Field (field name, key name, resolved type text, package alias) and
validate it. The duplicate check, which needs the running state, lives in
parseLoop. For a CustomType flag whose type text has no dot the Go code
panics slicing f.Type[:-1]; that is modelled as the panicSliceBounds error
(NewField can never produce such a flag). -/
def resolveField (f : FieldFlag) : Except GoErr GenField :=
  let keyName := modifyFirstLetter f.name goToLower ++ "Key".data
  let check : GenField → Except GoErr GenField := fun gf =>
    match gf.Validate with
    | some e => .error (invalidFieldMsg f.name e)
    | none => .ok gf
  match f.kind with
  | .Default => check ⟨f.name, keyName, "interface\x7b\x7d".data, none⟩
  | .BuiltInOnly => check ⟨f.name, keyName, f.type, none⟩
  | .CustomType =>
      match lastIdx f.type '.' with
      | none => .error .panicSliceBounds
      | some dot =>
          let pkgName := f.type.take dot
          let fieldType :=
            match lastIdx pkgName '/' with
            | none => f.type
            | some slash => f.type.drop (slash + 1)
          check ⟨f.name, keyName, fieldType, some pkgName⟩

/-- Insertion into the model of a Go map-backed string set: a duplicate-free
list kept in first-insertion order. -/
def insertIfAbsent (l : List Str) (x : Str) : List Str :=
  if x ∈ l then l else l ++ [x]

/-- Import path contributed by one flag to the seenPkgs set (line 146): for a
CustomType flag, the type text left of its last dot; nothing otherwise. -/
def fieldImport (f : FieldFlag) : Option Str :=
  match f.kind with
  | .CustomType => (lastIdx f.type '.').map (fun dot => f.type.take dot)
  | _ => none

/-- Update of the seenPkgs set for one flag: insert its import path, when it
contributes one. -/
def nextPkgs (seenPkgs : List Str) (f : FieldFlag) : List Str :=
  match fieldImport f with
  | none => seenPkgs
  | some p => insertIfAbsent seenPkgs p

/-- Main loop of ParseFields (lines 133-166): per flag, resolve the field,
record its import path, fail on a duplicate field name, accumulate. Returns
the final seenPkgs set and the gen.Field list. -/
def parseLoop (seenFields : List Str) (seenPkgs : List Str) :
    List FieldFlag → Except GoErr (List Str × List GenField)
  | [] => .ok (seenPkgs, [])
  | f :: rest =>
      match resolveField f with
      | .error e => .error e
      | .ok gf =>
          if gf.FieldName ∈ seenFields then .error (dupMsg gf.FieldName)
          else
            match parseLoop (gf.FieldName :: seenFields) (nextPkgs seenPkgs f) rest with
            | .error e => .error e
            | .ok (sp, gfs) => .ok (sp, gf :: gfs)

/-- Byte-wise lexicographic order of Go string comparison, as sort.StringSlice
uses it; on valid UTF-8, byte-wise order coincides with this code-point-wise
order. -/
def strLe : Str → Str → Bool
  | [], _ => true
  | _ :: _, [] => false
  | a :: as, b :: bs =>
      if a.toNat < b.toNat then true
      else if b.toNat < a.toNat then false
      else strLe as bs

/-- Propositional form of strLe, for the sorting lemmas. -/
def strLeR (a b : Str) : Prop := strLe a b = true

instance : DecidableRel strLeR := fun a b => by
  unfold strLeR
  infer_instance

/-- Model of sort.Sort(sort.StringSlice(...)): the lexicographically sorted
rearrangement, via insertion sort. -/
def sortStrings (l : List Str) : List Str := List.insertionSort strLeR l

/-- Record gen.Package of the internal gen package, with the fields
ParseFields sets. -/
structure GenPackage where
  PackageName : Str
  ImportPackages : List Str
  Version : Str
deriving DecidableEq

/-- Modelled from the spec: gen.Package.Validate (the internal gen package is
not under src/). Spec section 4.2 step 5: the package name must be non-empty
and syntactically a legal identifier. -/
def GenPackage.Validate (p : GenPackage) : Option GoErr :=
  match p.PackageName with
  | [] => some (.msg "package name is empty")
  | c :: rest =>
      if (c.isAlpha || c = '_') && rest.all (fun d => d.isAlphanum || d = '_') then
        none
      else some (.msg "package name is not a valid identifier")

/-- ParseFields with the iteration order of the seenPkgs hash map made
explicit: order rearranges the accumulated key set before it is sorted (Go
map range yields keys in unspecified order). ParseFields below instantiates
it with the identity; the determinism claim is proved for every
permutation-producing order. -/
def ParseFieldsOrd (order : List Str → List Str) (pkg version : Str)
    (fs : List FieldFlag) : Except GoErr (GenPackage × List GenField) :=
  match parseLoop [] ["context".data] fs with
  | .error e => .error e
  | .ok (seenPkgs, genFields) =>
      let genPkg : GenPackage := ⟨pkg, sortStrings (order seenPkgs), version⟩
      match genPkg.Validate with
      | some e => .error e
      | none => .ok (genPkg, genFields)

/-- ParseFields of the app package (lines 127-184). -/
def ParseFields (pkg version : Str) (fs : List FieldFlag) :
    Except GoErr (GenPackage × List GenField) :=
  ParseFieldsOrd id pkg version fs

/-- Packing of a model string back into a Lean string, for the emitted text. -/
def strOf (s : Str) : String := String.mk s

/-- Modelled from the spec: key-type declaration rendered by gen.Generate
(the internal gen package is not under src/). Spec section 4.3 item 4 first
bullet; concrete text pinned by the expected outputs in the tests of
cmd/valctx/main.go. -/
def renderKeyType (gf : GenField) : String :=
  "type " ++ strOf gf.KeyName ++ " struct\x7b\x7d\n"

/-- Modelled from the spec: getter rendered by gen.Generate. Spec section 4.3
item 4 second bullet: the untyped slot returns the stored value alone, a
concrete type returns a value-and-presence pair; the untyped sentinel is the
interface type the resolver sets for Default fields. Concrete text pinned by
the expected outputs in the tests of cmd/valctx/main.go. -/
def renderGetter (gf : GenField) : String :=
  if gf.FieldType = "interface\x7b\x7d".data then
    "// Get " ++ strOf gf.FieldName ++ " retrieves the " ++ strOf gf.FieldName ++
    " from the context.\nfunc Get" ++ strOf gf.FieldName ++
    "(ctx context.Context) interface\x7b\x7d \x7b\n    v := ctx.Value(" ++
    strOf gf.KeyName ++ "\x7b\x7d)\n    return v\n\x7d\n"
  else
    "// Get " ++ strOf gf.FieldName ++ " retrieves the " ++ strOf gf.FieldName ++
    " from the context.\nfunc Get" ++ strOf gf.FieldName ++
    "(ctx context.Context) (" ++ strOf gf.FieldType ++
    ", bool) \x7b\n    v, ok := ctx.Value(" ++ strOf gf.KeyName ++
    "\x7b\x7d).(" ++ strOf gf.FieldType ++ ")\n    return v, ok\n\x7d\n"

/-- Modelled from the spec: setter rendered by gen.Generate. Spec section 4.3
item 4 third bullet; concrete text pinned by the expected outputs in the
tests of cmd/valctx/main.go. -/
def renderSetter (gf : GenField) : String :=
  "// Set" ++ strOf gf.FieldName ++ " sets the " ++ strOf gf.FieldName ++
  " in the context.\nfunc Set" ++ strOf gf.FieldName ++
  "(ctx context.Context, v " ++ strOf gf.FieldType ++
  ") context.Context \x7b\n    return context.WithValue(ctx, " ++
  strOf gf.KeyName ++ "\x7b\x7d, v)\n\x7d\n"

/-- Declarations rendered for one field: key type, getter, setter, separated
by blank lines. -/
def renderFieldBlock (gf : GenField) : String :=
  renderKeyType gf ++ "\n" ++ renderGetter gf ++ "\n" ++ renderSetter gf

/-- Modelled from the spec: gen.Generate (the internal gen package is not
under src/). Spec section 4.3: provenance header with the tool version,
package clause, import block over the already sorted import list, then the
per-field declarations in input order. Concrete text pinned by the expected
outputs in the tests of cmd/valctx/main.go. -/
def Generate (p : GenPackage) (gfs : List GenField) : String :=
  "// Code generated by valctx " ++ strOf p.Version ++
  ". DO NOT EDIT.\n\npackage " ++ strOf p.PackageName ++ "\n\nimport (\n" ++
  String.join (p.ImportPackages.map (fun imp => "    \"" ++ strOf imp ++ "\"\n")) ++
  ")\n\n" ++
  String.intercalate "\n" (gfs.map renderFieldBlock)

/-- End-to-end pipeline as the run function wires it for the root command:
parse each -field occurrence with NewField (FieldFlags.Set), resolve with
ParseFields, emit with Generate. -/
def runPipeline (pkg version : String) (raws : List String) :
    Except GoErr String :=
  match raws.mapM (fun r => NewField r.data) with
  | .error e => .error e
  | .ok fs =>
      match ParseFields pkg.data version.data fs with
      | .error e => .error e
      | .ok (p, gfs) => .ok (Generate p gfs)

/-- Classification rule exactly as the specification words it (section 4.1
and the claim): the positions of the last dot and the last slash in the
trimmed type text decide the kind — dot after slash (or no slash) is
CustomType, no dot at all is BuiltinOnly with the type text kept verbatim,
and a dot at or before the last slash is the ErrInvalidFormat failure.
Declared only for comparison against NewField. -/
def specClassify (name type : Str) : Except GoErr FieldFlag :=
  let t := trimSpace type
  if lastIdxI t '.' > lastIdxI t '/' then
    .ok ⟨.CustomType, modifyFirstLetter (trimSpace name) goToUpper, t⟩
  else if lastIdxI t '.' = -1 then
    .ok ⟨.BuiltInOnly, modifyFirstLetter (trimSpace name) goToUpper, t⟩
  else .error .invalidFormat

/-- First name in the list that repeats an earlier one (earlier names
accumulate in seen), mirroring the order in which the seenFields check of
ParseFields encounters collisions. -/
def firstDup (seen : List Str) : List Str → Option Str
  | [] => none
  | n :: rest => if n ∈ seen then some n else firstDup (n :: seen) rest

/-- Success test for Except results (Go err == nil). -/
def isOkE {ε α : Type} : Except ε α → Bool
  | .ok _ => true
  | .error _ => false

/-- Resolved type text the CustomType branch of ParseFields computes: the
type text from the character after the last slash of its package part (the
part left of the last dot) onward; the whole text when that part has no
slash, and empty when there is no dot at all (a case in which ParseFields
never returns a field). -/
def typeAfterLastSlash (t : Str) : Str :=
  match lastIdx t '.' with
  | none => []
  | some dot =>
      match lastIdx (t.take dot) '/' with
      | none => t
      | some slash => t.drop (slash + 1)

lemma modifyFirstLetter_nil (m : Str → Str) :
    modifyFirstLetter [] m = m [runeError] := by
  simp [modifyFirstLetter, decodeRune]

lemma modifyFirstLetter_cons (c : Char) (rest : Str) (m : Str → Str) :
    modifyFirstLetter (c :: rest) m = m [c] ++ rest := rfl

lemma upperFirst_ne_nil (s : Str) : modifyFirstLetter s goToUpper ≠ [] := by
  cases s <;> simp [modifyFirstLetter, decodeRune, goToUpper]

lemma splitFirstColon_no_colon (s : Str) (h : (':' : Char) ∉ s) :
    splitFirstColon s = (s, none) := by
  induction s with
  | nil => rfl
  | cons c rest ih =>
      have hc : c ≠ ':' := fun he => h (he ▸ List.mem_cons_self c rest)
      have hr : (':' : Char) ∉ rest := fun hm => h (List.mem_cons_of_mem c hm)
      simp [splitFirstColon, hc, ih hr]

lemma splitFirstColon_append (name type : Str) (h : (':' : Char) ∉ name) :
    splitFirstColon (name ++ ':' :: type) = (name, some type) := by
  induction name with
  | nil => simp [splitFirstColon]
  | cons c rest ih =>
      have hc : c ≠ ':' := fun he => h (he ▸ List.mem_cons_self c rest)
      have hr : (':' : Char) ∉ rest := fun hm => h (List.mem_cons_of_mem c hm)
      simp [splitFirstColon, hc, ih hr]

lemma validate_default (n t : Str) (hn : n ≠ []) :
    FieldFlag.Validate ⟨.Default, n, t⟩ = none := by
  simp [FieldFlag.Validate, hn]

lemma validate_builtin (n t : Str) (hn : n ≠ []) (ht : t ≠ []) :
    FieldFlag.Validate ⟨.BuiltInOnly, n, t⟩ = none := by
  simp [FieldFlag.Validate, hn, ht]

lemma validate_custom (n t : Str) (hn : n ≠ []) (ht : t ≠ []) :
    FieldFlag.Validate ⟨.CustomType, n, t⟩ = none := by
  simp [FieldFlag.Validate, hn, ht]

lemma lastIdxI_ge (s : Str) (c : Char) : -1 ≤ lastIdxI s c := by
  cases h : lastIdx s c <;> simp [lastIdxI, h]
  omega

/-- C1: for every input of the form name:type (the name free of colons, the
type text non-empty after trimming), NewField classifies by the positions of
the last dot and the last slash in the trimmed type text exactly as
specClassify — the spec's rule — states it: dot after slash, or no slash, is
CustomType; no dot at all is BuiltinOnly keeping the type text verbatim; a
dot at or before the last slash fails with the ErrInvalidFormat sentinel. -/
theorem c1_parser_classification (name type : Str) (hn : (':' : Char) ∉ name)
    (ht : trimSpace type ≠ []) :
    NewField (name ++ ':' :: type) = specClassify name type := by
  unfold NewField specClassify
  rw [splitFirstColon_append name type hn]
  by_cases h1 : lastIdxI (trimSpace type) '.' > lastIdxI (trimSpace type) '/'
  · simp [h1, validate_custom _ _ (upperFirst_ne_nil (trimSpace name)) ht]
  · by_cases h2 : lastIdxI (trimSpace type) '.' = -1
    · have h3 : ¬ lastIdxI (trimSpace type) '/' < -1 :=
        not_lt.mpr (lastIdxI_ge (trimSpace type) '/')
      simp [h1, h2, h3, validate_builtin _ _ (upperFirst_ne_nil (trimSpace name)) ht]
    · simp [h1, h2]

/-- Witness for C1: the concrete input u:pkg/p.T, classified CustomType. -/
theorem c1_parser_classification_witness :
    NewField ("u".data ++ ':' :: "pkg/p.T".data) =
      specClassify "u".data "pkg/p.T".data :=
  c1_parser_classification "u".data "pkg/p.T".data (by decide) (by decide)

lemma resolveField_default_ok (f : FieldFlag) (gf : GenField)
    (hk : f.kind = .Default) (h : resolveField f = .ok gf) :
    gf = ⟨f.name, modifyFirstLetter f.name goToLower ++ "Key".data,
      "interface\x7b\x7d".data, none⟩ := by
  unfold resolveField at h
  rw [hk] at h
  dsimp only at h
  revert h
  cases hv : GenField.Validate ⟨f.name, modifyFirstLetter f.name goToLower ++ "Key".data,
      "interface\x7b\x7d".data, none⟩ <;> intro h <;> simp_all

lemma resolveField_builtin_ok (f : FieldFlag) (gf : GenField)
    (hk : f.kind = .BuiltInOnly) (h : resolveField f = .ok gf) :
    gf = ⟨f.name, modifyFirstLetter f.name goToLower ++ "Key".data, f.type, none⟩ := by
  unfold resolveField at h
  rw [hk] at h
  dsimp only at h
  revert h
  cases hv : GenField.Validate ⟨f.name, modifyFirstLetter f.name goToLower ++ "Key".data,
      f.type, none⟩ <;> intro h <;> simp_all

lemma resolveField_custom_ok (f : FieldFlag) (gf : GenField)
    (hk : f.kind = .CustomType) (h : resolveField f = .ok gf) :
    ∃ dot, lastIdx f.type '.' = some dot ∧
      gf = ⟨f.name, modifyFirstLetter f.name goToLower ++ "Key".data,
        typeAfterLastSlash f.type, some (f.type.take dot)⟩ := by
  unfold resolveField at h
  rw [hk] at h
  dsimp only at h
  cases hd : lastIdx f.type '.' with
  | none => rw [hd] at h; exact absurd h (by simp)
  | some dot =>
      rw [hd] at h
      dsimp only at h
      refine ⟨dot, rfl, ?_⟩
      have hty : typeAfterLastSlash f.type =
          match lastIdx (f.type.take dot) '/' with
          | none => f.type
          | some slash => f.type.drop (slash + 1) := by
        unfold typeAfterLastSlash
        rw [hd]
      revert h
      cases hs : lastIdx (f.type.take dot) '/' <;> rw [hs] at hty <;> dsimp only <;>
        cases hv : GenField.Validate ⟨f.name,
          modifyFirstLetter f.name goToLower ++ "Key".data, _, some (f.type.take dot)⟩ <;>
        intro h <;> simp_all

lemma resolveField_ok_name (f : FieldFlag) (gf : GenField)
    (h : resolveField f = .ok gf) : gf.FieldName = f.name := by
  cases hk : f.kind
  · rw [resolveField_default_ok f gf hk h]
  · rw [resolveField_builtin_ok f gf hk h]
  · obtain ⟨dot, _, rfl⟩ := resolveField_custom_ok f gf hk h
    rfl

lemma parseLoop_ok_forall₂ :
    ∀ (fs : List FieldFlag) {sF sP sp : List Str} {gfs : List GenField},
      parseLoop sF sP fs = .ok (sp, gfs) →
      List.Forall₂ (fun f gf => resolveField f = .ok gf) fs gfs
  | [], sF, sP, sp, gfs => by
      intro h
      simp only [parseLoop, Except.ok.injEq, Prod.mk.injEq] at h
      rw [← h.2]
      exact List.Forall₂.nil
  | f :: rest, sF, sP, sp, gfs => by
      intro h
      rw [parseLoop] at h
      cases hr : resolveField f with
      | error e => rw [hr] at h; exact absurd h (by simp)
      | ok gf =>
          rw [hr] at h
          dsimp only at h
          by_cases hm : gf.FieldName ∈ sF
          · rw [if_pos hm] at h; exact absurd h (by simp)
          · rw [if_neg hm] at h
            cases hrec : parseLoop (gf.FieldName :: sF) (nextPkgs sP f) rest with
            | error e => rw [hrec] at h; exact absurd h (by simp)
            | ok pr =>
                obtain ⟨sp', gfs'⟩ := pr
                rw [hrec] at h
                simp only [Except.ok.injEq, Prod.mk.injEq] at h
                rw [← h.2]
                exact List.Forall₂.cons hr (parseLoop_ok_forall₂ rest hrec)

lemma parseLoop_ok_pkgs :
    ∀ (fs : List FieldFlag) {sF sP sp : List Str} {gfs : List GenField},
      parseLoop sF sP fs = .ok (sp, gfs) →
      sp = fs.foldl nextPkgs sP
  | [], sF, sP, sp, gfs => by
      intro h
      simp only [parseLoop, Except.ok.injEq, Prod.mk.injEq] at h
      rw [← h.1]
      rfl
  | f :: rest, sF, sP, sp, gfs => by
      intro h
      rw [parseLoop] at h
      cases hr : resolveField f with
      | error e => rw [hr] at h; exact absurd h (by simp)
      | ok gf =>
          rw [hr] at h
          dsimp only at h
          by_cases hm : gf.FieldName ∈ sF
          · rw [if_pos hm] at h; exact absurd h (by simp)
          · rw [if_neg hm] at h
            cases hrec : parseLoop (gf.FieldName :: sF) (nextPkgs sP f) rest with
            | error e => rw [hrec] at h; exact absurd h (by simp)
            | ok pr =>
                obtain ⟨sp', gfs'⟩ := pr
                rw [hrec] at h
                simp only [Except.ok.injEq, Prod.mk.injEq] at h
                rw [← h.1]
                exact parseLoop_ok_pkgs rest hrec

lemma ParseFields_ok_parts {pkg ver : Str} {fs : List FieldFlag}
    {p : GenPackage} {gfs : List GenField}
    (h : ParseFields pkg ver fs = .ok (p, gfs)) :
    ∃ sp, parseLoop [] ["context".data] fs = .ok (sp, gfs) ∧
      p = ⟨pkg, sortStrings sp, ver⟩ := by
  unfold ParseFields ParseFieldsOrd at h
  cases hl : parseLoop [] ["context".data] fs with
  | error e => rw [hl] at h; exact absurd h (by simp)
  | ok pr =>
      obtain ⟨sp, gfs'⟩ := pr
      rw [hl] at h
      dsimp only at h
      cases hv : GenPackage.Validate ⟨pkg, sortStrings (id sp), ver⟩ with
      | some e => rw [hv] at h; exact absurd h (by simp)
      | none =>
          rw [hv] at h
          simp only [Except.ok.injEq, Prod.mk.injEq] at h
          exact ⟨sp, by rw [h.2], by rw [← h.1]; rfl⟩

lemma char_toNat_inj {a b : Char} (h : a.toNat = b.toNat) : a = b := by
  rw [← Char.ofNat_toNat a, ← Char.ofNat_toNat b, h]

lemma strLe_cons_iff (a b : Char) (as bs : Str) :
    strLe (a :: as) (b :: bs) = true ↔
      a.toNat < b.toNat ∨ (a.toNat = b.toNat ∧ strLe as bs = true) := by
  simp only [strLe]
  split_ifs with h1 h2
  · simp [h1]
  · simp only [Bool.false_eq_true, false_iff]
    push_neg
    constructor
    · omega
    · intro h _
      omega
  · have : a.toNat = b.toNat := by omega
    simp [this]

lemma strLe_total : ∀ a b : Str, strLe a b = true ∨ strLe b a = true
  | [], _ => Or.inl rfl
  | _ :: _, [] => Or.inr rfl
  | a :: as, b :: bs => by
      rcases Nat.lt_trichotomy a.toNat b.toNat with h | h | h
      · left
        rw [strLe_cons_iff]
        exact Or.inl h
      · rcases strLe_total as bs with ih | ih
        · left
          rw [strLe_cons_iff]
          exact Or.inr ⟨h, ih⟩
        · right
          rw [strLe_cons_iff]
          exact Or.inr ⟨h.symm, ih⟩
      · right
        rw [strLe_cons_iff]
        exact Or.inl h

lemma strLe_trans : ∀ a b c : Str,
    strLe a b = true → strLe b c = true → strLe a c = true
  | [], _, _ => by
      intro _ _
      rfl
  | _ :: _, [], _ => by
      intro h _
      simp [strLe] at h
  | _ :: _, _ :: _, [] => by
      intro _ h
      simp [strLe] at h
  | a :: as, b :: bs, c :: cs => by
      intro h1 h2
      rw [strLe_cons_iff] at h1 h2 ⊢
      rcases h1 with h1 | ⟨h1e, h1s⟩ <;> rcases h2 with h2 | ⟨h2e, h2s⟩
      · exact Or.inl (by omega)
      · exact Or.inl (by omega)
      · exact Or.inl (by omega)
      · exact Or.inr ⟨by omega, strLe_trans as bs cs h1s h2s⟩

lemma strLe_antisymm : ∀ a b : Str, strLe a b = true → strLe b a = true → a = b
  | [], [] => by
      intro _ _
      rfl
  | [], _ :: _ => by
      intro _ h
      simp [strLe] at h
  | _ :: _, [] => by
      intro h _
      simp [strLe] at h
  | a :: as, b :: bs => by
      intro h1 h2
      rw [strLe_cons_iff] at h1 h2
      rcases h1 with h1 | ⟨h1e, h1s⟩ <;> rcases h2 with h2 | ⟨h2e, h2s⟩
      · omega
      · omega
      · omega
      · rw [char_toNat_inj h1e, strLe_antisymm as bs h1s h2s]

instance : IsTotal Str strLeR := ⟨strLe_total⟩

instance : IsTrans Str strLeR := ⟨strLe_trans⟩

instance : IsAntisymm Str strLeR := ⟨strLe_antisymm⟩

lemma sortStrings_perm (l : List Str) : List.Perm (sortStrings l) l :=
  List.perm_insertionSort strLeR l

lemma sortStrings_sorted (l : List Str) : List.Sorted strLeR (sortStrings l) :=
  List.sorted_insertionSort strLeR l

lemma mem_sortStrings {l : List Str} {x : Str} : x ∈ sortStrings l ↔ x ∈ l :=
  (sortStrings_perm l).mem_iff

lemma sortStrings_eq_of_perm {l₁ l₂ : List Str} (h : List.Perm l₁ l₂) :
    sortStrings l₁ = sortStrings l₂ :=
  List.eq_of_perm_of_sorted
    ((sortStrings_perm l₁).trans (h.trans (sortStrings_perm l₂).symm))
    (sortStrings_sorted l₁) (sortStrings_sorted l₂)

lemma mem_insertIfAbsent {l : List Str} {a x : Str} :
    x ∈ insertIfAbsent l a ↔ x ∈ l ∨ x = a := by
  unfold insertIfAbsent
  split_ifs with h
  · constructor
    · exact Or.inl
    · rintro (hx | rfl)
      · exact hx
      · exact h
  · simp [List.mem_append]

lemma nodup_insertIfAbsent {l : List Str} (a : Str) (h : l.Nodup) :
    (insertIfAbsent l a).Nodup := by
  unfold insertIfAbsent
  split_ifs with hm
  · exact h
  · simp [List.nodup_append, h, hm]

lemma mem_nextPkgs {sP : List Str} {f : FieldFlag} {x : Str} :
    x ∈ nextPkgs sP f ↔ x ∈ sP ∨ fieldImport f = some x := by
  unfold nextPkgs
  cases hf : fieldImport f with
  | none => simp
  | some p => simp [mem_insertIfAbsent, eq_comm]

lemma nodup_nextPkgs {sP : List Str} (f : FieldFlag) (h : sP.Nodup) :
    (nextPkgs sP f).Nodup := by
  unfold nextPkgs
  cases fieldImport f with
  | none => exact h
  | some p => exact nodup_insertIfAbsent p h

lemma mem_foldl_nextPkgs :
    ∀ (fs : List FieldFlag) (sP : List Str) (x : Str),
      x ∈ fs.foldl nextPkgs sP ↔ x ∈ sP ∨ ∃ f ∈ fs, fieldImport f = some x
  | [], sP, x => by simp
  | f :: rest, sP, x => by
      rw [List.foldl_cons, mem_foldl_nextPkgs rest, mem_nextPkgs]
      simp [or_assoc]

lemma nodup_foldl_nextPkgs :
    ∀ (fs : List FieldFlag) {sP : List Str}, sP.Nodup → (fs.foldl nextPkgs sP).Nodup
  | [], _ => fun h => h
  | f :: rest, _ => fun h =>
      nodup_foldl_nextPkgs rest (nodup_nextPkgs f h)

/-- C7: for every input name (colon-free) whose trimmed form is non-empty,
NewField upper-cases exactly the first character — by the Unicode simple
uppercase mapping Go's strings.ToUpper applies, covering non-ASCII letters —
and keeps the remainder unchanged; rune-aware, since the decoding step works
on whole characters. In particular userID and UserID with no type both yield
the field name UserID, and the non-ASCII äbc yields Äbc. -/
theorem c7_first_letter_normalization :
    (∀ (s : Str) (c : Char) (rest : Str), (':' : Char) ∉ s →
        trimSpace s = c :: rest →
        NewField s = .ok ⟨.Default, goUpperChar c :: rest, []⟩) ∧
    NewField "userID".data = .ok ⟨.Default, "UserID".data, []⟩ ∧
    NewField "UserID".data = .ok ⟨.Default, "UserID".data, []⟩ ∧
    NewField "äbc".data = .ok ⟨.Default, "Äbc".data, []⟩ := by
  refine ⟨?_, by decide, by decide, by decide⟩
  intro s c rest hcolon htrim
  unfold NewField
  rw [splitFirstColon_no_colon s hcolon]
  have hname : modifyFirstLetter (trimSpace s) goToUpper = goUpperChar c :: rest := by
    rw [htrim, modifyFirstLetter_cons]
    simp [goToUpper]
  simp [hname, validate_default (goUpperChar c :: rest) [] (by simp)]

/-- Witness for C7: the non-ASCII input äbc parses to field name Äbc. -/
theorem c7_first_letter_normalization_witness :
    NewField "äbc".data = .ok ⟨.Default, goUpperChar 'ä' :: "bc".data, []⟩ :=
  c7_first_letter_normalization.1 "äbc".data 'ä' "bc".data (by decide) (by decide)

lemma ParseFields_zip {pkg ver : Str} {fs : List FieldFlag} {p : GenPackage}
    {gfs : List GenField} (h : ParseFields pkg ver fs = .ok (p, gfs)) :
    ∀ f gf, (f, gf) ∈ fs.zip gfs → resolveField f = .ok gf := by
  obtain ⟨sp, hl, _⟩ := ParseFields_ok_parts h
  have h2 := parseLoop_ok_forall₂ fs hl
  rw [List.forall₂_iff_zip] at h2
  intro f gf hm
  exact h2.2 hm

/-- C2 counterexample: resolving the CustomType descriptor with type text
pkg/path.Type yields the emitted type text path.Type — the segment after the
last slash — not the bare name Type after the last dot that the claim
states. -/
theorem c2_counterexample :
    NewField "u:pkg/path.Type".data =
      .ok ⟨.CustomType, "U".data, "pkg/path.Type".data⟩ ∧
    ParseFields "gen".data "".data
        [⟨.CustomType, "U".data, "pkg/path.Type".data⟩] =
      .ok (⟨"gen".data, ["context".data, "pkg/path".data], "".data⟩,
        [⟨"U".data, "uKey".data, "path.Type".data, some "pkg/path".data⟩]) ∧
    "path.Type".data ≠ "Type".data := by decide

/-- C2 amended: for every CustomType field of a successful resolution, the
emitted type text is the suffix of the type text that follows the last slash
of its package part (the whole type text when that part has no slash) — e.g.
path.Type for pkg/path.Type — not the bare segment after the last dot. -/
theorem c2_custom_field_type (pkg ver : Str) (fs : List FieldFlag)
    (p : GenPackage) (gfs : List GenField)
    (h : ParseFields pkg ver fs = .ok (p, gfs)) (f : FieldFlag) (gf : GenField)
    (hmem : (f, gf) ∈ fs.zip gfs) (hk : f.kind = .CustomType) :
    gf.FieldType = typeAfterLastSlash f.type := by
  have hr := ParseFields_zip h f gf hmem
  obtain ⟨dot, hd, rfl⟩ := resolveField_custom_ok f gf hk hr
  rfl

/-- Witness for the amended C2 at the concrete input U:pkg/path.Type. -/
theorem c2_custom_field_type_witness :
    (⟨"U".data, "uKey".data, "path.Type".data,
        some "pkg/path".data⟩ : GenField).FieldType =
      typeAfterLastSlash "pkg/path.Type".data :=
  c2_custom_field_type "gen".data "".data
    [⟨.CustomType, "U".data, "pkg/path.Type".data⟩]
    ⟨"gen".data, ["context".data, "pkg/path".data], "".data⟩
    [⟨"U".data, "uKey".data, "path.Type".data, some "pkg/path".data⟩]
    (by decide) ⟨.CustomType, "U".data, "pkg/path.Type".data⟩
    ⟨"U".data, "uKey".data, "path.Type".data, some "pkg/path".data⟩
    (by decide) rfl

lemma fieldImport_eq_some (f : FieldFlag) (s : Str) :
    fieldImport f = some s ↔
      f.kind = .CustomType ∧
        ∃ dot, lastIdx f.type '.' = some dot ∧ s = f.type.take dot := by
  cases hk : f.kind <;> simp [fieldImport, hk]
  cases hd : lastIdx f.type '.' <;> simp [hd, eq_comm]

/-- C3: for every successful resolution, the import list contains exactly the
base context import together with, per CustomType field, the whole type text
left of its last dot (the import path pkg/path of name:pkg/path.Type). -/
theorem c3_import_set (pkg ver : Str) (fs : List FieldFlag) (p : GenPackage)
    (gfs : List GenField) (h : ParseFields pkg ver fs = .ok (p, gfs)) (s : Str) :
    s ∈ p.ImportPackages ↔
      s = "context".data ∨
        ∃ f ∈ fs, f.kind = .CustomType ∧
          ∃ dot, lastIdx f.type '.' = some dot ∧ s = f.type.take dot := by
  obtain ⟨sp, hl, rfl⟩ := ParseFields_ok_parts h
  have hsp := parseLoop_ok_pkgs fs hl
  show s ∈ sortStrings sp ↔ _
  rw [mem_sortStrings, hsp, mem_foldl_nextPkgs]
  simp [fieldImport_eq_some]

/-- Witness for C3 at the concrete input U:pkg/path.Type and the import path
pkg/path. -/
theorem c3_import_set_witness :
    "pkg/path".data ∈
        (⟨"gen".data, ["context".data, "pkg/path".data], "".data⟩ :
          GenPackage).ImportPackages ↔
      "pkg/path".data = "context".data ∨
        ∃ f ∈ [(⟨.CustomType, "U".data, "pkg/path.Type".data⟩ : FieldFlag)],
          f.kind = .CustomType ∧
            ∃ dot, lastIdx f.type '.' = some dot ∧
              "pkg/path".data = f.type.take dot :=
  c3_import_set "gen".data "".data
    [⟨.CustomType, "U".data, "pkg/path.Type".data⟩]
    ⟨"gen".data, ["context".data, "pkg/path".data], "".data⟩
    [⟨"U".data, "uKey".data, "path.Type".data, some "pkg/path".data⟩]
    (by decide) "pkg/path".data

/-- C4 counterexample: resolving a Default descriptor sets the final type
text to the sentinel interface type of the implementation language, not to
the literal text any the claim states. -/
theorem c4_counterexample :
    NewField "userID".data = .ok ⟨.Default, "UserID".data, []⟩ ∧
    ParseFields "gen".data "".data [⟨.Default, "UserID".data, []⟩] =
      .ok (⟨"gen".data, ["context".data], "".data⟩,
        [⟨"UserID".data, "userIDKey".data, "interface\x7b\x7d".data, none⟩]) ∧
    "interface\x7b\x7d".data ≠ "any".data := by decide

/-- C4 amended: for every Default descriptor of a successful resolution, the
field's final type text is the untyped sentinel, which is the interface
type text of the implementation language rather than the literal any. -/
theorem c4_default_field_type (pkg ver : Str) (fs : List FieldFlag)
    (p : GenPackage) (gfs : List GenField)
    (h : ParseFields pkg ver fs = .ok (p, gfs)) (f : FieldFlag) (gf : GenField)
    (hmem : (f, gf) ∈ fs.zip gfs) (hk : f.kind = .Default) :
    gf.FieldType = "interface\x7b\x7d".data := by
  have hr := ParseFields_zip h f gf hmem
  rw [resolveField_default_ok f gf hk hr]

/-- Witness for the amended C4 at the concrete descriptor UserID. -/
theorem c4_default_field_type_witness :
    (⟨"UserID".data, "userIDKey".data, "interface\x7b\x7d".data,
        none⟩ : GenField).FieldType = "interface\x7b\x7d".data :=
  c4_default_field_type "gen".data "".data [⟨.Default, "UserID".data, []⟩]
    ⟨"gen".data, ["context".data], "".data⟩
    [⟨"UserID".data, "userIDKey".data, "interface\x7b\x7d".data, none⟩]
    (by decide) ⟨.Default, "UserID".data, []⟩
    ⟨"UserID".data, "userIDKey".data, "interface\x7b\x7d".data, none⟩
    (by decide) rfl

lemma parseLoop_firstDup :
    ∀ (fs : List FieldFlag) (seen sP : List Str) (n : Str),
      (∀ f ∈ fs, isOkE (resolveField f) = true) →
      firstDup seen (fs.map FieldFlag.name) = some n →
      parseLoop seen sP fs = .error (dupMsg n)
  | [], seen, sP, n => by
      intro _ hd
      simp [firstDup] at hd
  | f :: rest, seen, sP, n => by
      intro hok hd
      have hokf := hok f (List.mem_cons_self f rest)
      obtain ⟨gf, hgf⟩ : ∃ gf, resolveField f = .ok gf := by
        cases hr : resolveField f with
        | error e => rw [hr] at hokf; simp [isOkE] at hokf
        | ok gf => exact ⟨gf, rfl⟩
      have hname := resolveField_ok_name f gf hgf
      rw [List.map_cons, firstDup] at hd
      rw [parseLoop, hgf]
      dsimp only
      by_cases hm : f.name ∈ seen
      · rw [if_pos hm] at hd
        injection hd with hd
        rw [if_pos (by rw [hname]; exact hm), hname, hd]
      · rw [if_neg hm] at hd
        rw [if_neg (by rw [hname]; exact hm), hname,
          parseLoop_firstDup rest (f.name :: seen) (nextPkgs sP f) n
            (fun g hg => hok g (List.mem_cons_of_mem f hg)) hd]

/-- C5: for every descriptor sequence whose (already normalized) field names
contain a collision, and whose fields each resolve on their own, resolution
fails at the first collision with the error naming that duplicated field, and
returns no generation model. -/
theorem c5_duplicate_names (pkg ver : Str) (fs : List FieldFlag) (n : Str)
    (hok : ∀ f ∈ fs, isOkE (resolveField f) = true)
    (hdup : firstDup [] (fs.map FieldFlag.name) = some n) :
    ParseFields pkg ver fs = .error (dupMsg n) ∧
      ∀ p gfs, ParseFields pkg ver fs ≠ .ok (p, gfs) := by
  have h1 : ParseFields pkg ver fs = .error (dupMsg n) := by
    unfold ParseFields ParseFieldsOrd
    rw [parseLoop_firstDup fs [] ["context".data] n hok hdup]
  refine ⟨h1, fun p gfs hcon => ?_⟩
  rw [h1] at hcon
  exact absurd hcon (by simp)

/-- Witness for C5: userID and UserID both normalize to UserID (the two
descriptors below are exactly what NewField produces for them), and
resolution fails with the error naming UserID. -/
theorem c5_duplicate_names_witness :
    ParseFields "gen".data "".data
        [⟨.Default, "UserID".data, []⟩, ⟨.Default, "UserID".data, []⟩] =
      .error (dupMsg "UserID".data) ∧
      ∀ p gfs, ParseFields "gen".data "".data
          [⟨.Default, "UserID".data, []⟩, ⟨.Default, "UserID".data, []⟩] ≠
        .ok (p, gfs) :=
  c5_duplicate_names "gen".data "".data
    [⟨.Default, "UserID".data, []⟩, ⟨.Default, "UserID".data, []⟩]
    "UserID".data (by decide) (by decide)

/-- C6: for every successful resolution, the import list contains the base
context import (also with zero custom-typed fields), has no duplicates, and
is lexicographically sorted. -/
theorem c6_import_invariants (pkg ver : Str) (fs : List FieldFlag)
    (p : GenPackage) (gfs : List GenField)
    (h : ParseFields pkg ver fs = .ok (p, gfs)) :
    "context".data ∈ p.ImportPackages ∧ p.ImportPackages.Nodup ∧
      List.Sorted strLeR p.ImportPackages := by
  obtain ⟨sp, hl, rfl⟩ := ParseFields_ok_parts h
  have hsp := parseLoop_ok_pkgs fs hl
  refine ⟨?_, ?_, sortStrings_sorted sp⟩
  · show "context".data ∈ sortStrings sp
    rw [mem_sortStrings, hsp, mem_foldl_nextPkgs]
    simp
  · show (sortStrings sp).Nodup
    have hnd : sp.Nodup := by
      rw [hsp]
      exact nodup_foldl_nextPkgs fs (by simp)
    exact ((sortStrings_perm sp).nodup_iff).mpr hnd

/-- Witness for C6: the empty descriptor sequence resolves with import list
exactly the base context import. -/
theorem c6_import_invariants_witness :
    "context".data ∈
        (⟨"gen".data, ["context".data], "".data⟩ : GenPackage).ImportPackages ∧
      (⟨"gen".data, ["context".data], "".data⟩ :
          GenPackage).ImportPackages.Nodup ∧
      List.Sorted strLeR
        (⟨"gen".data, ["context".data], "".data⟩ :
          GenPackage).ImportPackages :=
  c6_import_invariants "gen".data "".data []
    ⟨"gen".data, ["context".data], "".data⟩ [] (by decide)

/-- C8: the getter emitted for an untyped Default field returns the stored
value alone while the getter for a concretely typed field returns a value
and presence-boolean pair — shown end to end on the two scenario inputs the
claim names: field1:int yields GetField1 with return type pair (int, bool)
and key type field1Key, and the untyped UserID yields GetUserID returning
the bare stored value. -/
theorem c8_getter_shapes :
    runPipeline "gen" "" ["field1:int"] =
      .ok ("// Code generated by valctx . DO NOT EDIT.\n\npackage gen\n\nimport (\n    \"context\"\n)\n\ntype field1Key struct\x7b\x7d\n\n// Get Field1 retrieves the Field1 from the context.\nfunc GetField1(ctx context.Context) (int, bool) \x7b\n    v, ok := ctx.Value(field1Key\x7b\x7d).(int)\n    return v, ok\n\x7d\n\n// SetField1 sets the Field1 in the context.\nfunc SetField1(ctx context.Context, v int) context.Context \x7b\n    return context.WithValue(ctx, field1Key\x7b\x7d, v)\n\x7d\n") ∧
    runPipeline "gen" "" ["UserID"] =
      .ok ("// Code generated by valctx . DO NOT EDIT.\n\npackage gen\n\nimport (\n    \"context\"\n)\n\ntype userIDKey struct\x7b\x7d\n\n// Get UserID retrieves the UserID from the context.\nfunc GetUserID(ctx context.Context) interface\x7b\x7d \x7b\n    v := ctx.Value(userIDKey\x7b\x7d)\n    return v\n\x7d\n\n// SetUserID sets the UserID in the context.\nfunc SetUserID(ctx context.Context, v interface\x7b\x7d) context.Context \x7b\n    return context.WithValue(ctx, userIDKey\x7b\x7d, v)\n\x7d\n") := by
  decide

/-- C9: resolution, and emission composed with it, is deterministic — the
result does not depend on the iteration order of the seenPkgs hash map,
because the import list is sorted before use; two runs whose map iteration
orders are any two rearrangements of the key set produce equal models and
byte-identical generated text. -/
theorem c9_determinism (order₁ order₂ : List Str → List Str)
    (h₁ : ∀ l, List.Perm (order₁ l) l) (h₂ : ∀ l, List.Perm (order₂ l) l)
    (pkg ver : Str) (fs : List FieldFlag) :
    ParseFieldsOrd order₁ pkg ver fs = ParseFieldsOrd order₂ pkg ver fs ∧
      (ParseFieldsOrd order₁ pkg ver fs).map (fun pr => Generate pr.1 pr.2) =
        (ParseFieldsOrd order₂ pkg ver fs).map (fun pr => Generate pr.1 pr.2) := by
  have key : ParseFieldsOrd order₁ pkg ver fs = ParseFieldsOrd order₂ pkg ver fs := by
    unfold ParseFieldsOrd
    cases parseLoop [] ["context".data] fs with
    | error e => rfl
    | ok pr =>
        obtain ⟨sp, gfs⟩ := pr
        dsimp only
        rw [sortStrings_eq_of_perm ((h₁ sp).trans (h₂ sp).symm)]
  exact ⟨key, by rw [key]⟩

/-- Witness for C9: identity order against reversal order on a concrete
resolution. -/
theorem c9_determinism_witness :
    ParseFieldsOrd id "gen".data "".data [⟨.Default, "UserID".data, []⟩] =
        ParseFieldsOrd List.reverse "gen".data "".data
          [⟨.Default, "UserID".data, []⟩] ∧
      (ParseFieldsOrd id "gen".data "".data
            [⟨.Default, "UserID".data, []⟩]).map (fun pr => Generate pr.1 pr.2) =
        (ParseFieldsOrd List.reverse "gen".data "".data
            [⟨.Default, "UserID".data, []⟩]).map (fun pr => Generate pr.1 pr.2) :=
  c9_determinism id List.reverse (fun l => List.Perm.refl l)
    (fun l => List.reverse_perm l) "gen".data "".data
    [⟨.Default, "UserID".data, []⟩]

/-- C10: parsing the empty string, or a whitespace-only string, does not hit
the name-required error: decoding the first rune of the empty trimmed name
yields the replacement character with size 0, normalization produces the
one-character name U+FFFD, and NewField succeeds with kind Default. -/
theorem c10_empty_input_parses :
    NewField "".data = .ok ⟨.Default, [runeError], []⟩ ∧
    NewField "  ".data = .ok ⟨.Default, [runeError], []⟩ ∧
    runeError = '�' := by decide

end Valctx
